import Mathlib

/-!
Verification of the harvesting/resume engine of the Reddit user downloader
(`src/main.py`) against its natural-language specification.

The Python source is shallowly embedded: strings are lists of characters
(Python `str.strip` and `str.lower` are modelled character-by-character for
the ASCII range plus the accented Hungarian letters the program's word regex
recognises), the line-oriented persistent stores are lists of lines, the
paginated feed is a list of items, and floating-point scores are modelled
as rationals.  External collaborators (the Reddit API, the langdetect and
hunspell libraries) enter as explicit function parameters, exactly at the
interfaces where the source calls them.
-/

/-- A Python string, embedded as its list of characters. -/
abbrev Str := List Char

/-- Python `str.lower`, restricted to the characters the program manipulates:
ASCII letters plus the accented Hungarian letters of `_WORD_RE`.  All other
characters are fixed. -/
def lowerChar (c : Char) : Char :=
  if c = 'A' then 'a' else if c = 'B' then 'b' else if c = 'C' then 'c'
  else if c = 'D' then 'd' else if c = 'E' then 'e' else if c = 'F' then 'f'
  else if c = 'G' then 'g' else if c = 'H' then 'h' else if c = 'I' then 'i'
  else if c = 'J' then 'j' else if c = 'K' then 'k' else if c = 'L' then 'l'
  else if c = 'M' then 'm' else if c = 'N' then 'n' else if c = 'O' then 'o'
  else if c = 'P' then 'p' else if c = 'Q' then 'q' else if c = 'R' then 'r'
  else if c = 'S' then 's' else if c = 'T' then 't' else if c = 'U' then 'u'
  else if c = 'V' then 'v' else if c = 'W' then 'w' else if c = 'X' then 'x'
  else if c = 'Y' then 'y' else if c = 'Z' then 'z'
  else if c = 'Á' then 'á' else if c = 'É' then 'é' else if c = 'Í' then 'í'
  else if c = 'Ó' then 'ó' else if c = 'Ö' then 'ö' else if c = 'Ő' then 'ő'
  else if c = 'Ú' then 'ú' else if c = 'Ü' then 'ü' else if c = 'Ű' then 'ű'
  else c

/-- Python `str.lower` on a whole string. -/
def pyLower (s : Str) : Str := s.map lowerChar

/-- The whitespace characters removed by Python `str.strip()`. -/
def isSpaceChar (c : Char) : Bool :=
  c = ' ' || c = '\t' || c = '\n' || c = '\x0d' || c = '\x0b' || c = '\x0c'

/-- Python `str.strip()`: remove leading and trailing whitespace. -/
def pyStrip (s : Str) : Str :=
  ((s.dropWhile isSpaceChar).reverse.dropWhile isSpaceChar).reverse

/-- Python `s.startswith("u/")`. -/
def startsWithU : Str → Bool
  | 'u' :: '/' :: _ => true
  | _ => false

/-- Python `s.startswith("r/")`. -/
def startsWithR : Str → Bool
  | 'r' :: '/' :: _ => true
  | _ => false

/-- `_norm_user` from `src/main.py`: strip, drop a leading `u/` (detected on
the lowered string, dropped from the unlowered one), then lower. -/
def norm_user (name : Str) : Str :=
  let name1 := pyStrip name
  let name2 := if startsWithU (pyLower name1) then name1.drop 2 else name1
  pyLower name2

/-- `_norm_sub` from `src/main.py`: strip, drop a leading `r/`, then lower. -/
def norm_sub (name : Str) : Str :=
  let name1 := pyStrip name
  let name2 := if startsWithR (pyLower name1) then name1.drop 2 else name1
  pyLower name2

/-- The set of entries a store file denotes on read: each line stripped,
blank lines dropped (`set(x.strip() for ... if x.strip())`). -/
def storeLines (lines : List Str) : List Str :=
  (lines.map pyStrip).filter (fun x => x ≠ [])

/-- `add_to_visited` from `src/main.py`: append the normalized key as a new
line unless it is already among the (stripped, non-blank) lines on disk. -/
def add_to_visited (lines : List Str) (username : Str) : List Str :=
  let key := norm_user username
  if key ∈ storeLines lines then lines else lines ++ [key]

/-- `is_visited` from `src/main.py`: membership of the normalized key among
the stripped non-blank lines. -/
def is_visited (lines : List Str) (username : Str) : Bool :=
  decide (norm_user username ∈ storeLines lines)

/-- `add_to_timeouts` from `src/main.py`: same contract as `add_to_visited`
against the timeouts file. -/
def add_to_timeouts (lines : List Str) (username : Str) : List Str :=
  let key := norm_user username
  if key ∈ storeLines lines then lines else lines ++ [key]

theorem lowerChar_idem (c : Char) : lowerChar (lowerChar c) = lowerChar c := by
  by_cases h1 : c = 'A'
  · subst h1; decide
  by_cases h2 : c = 'B'
  · subst h2; decide
  by_cases h3 : c = 'C'
  · subst h3; decide
  by_cases h4 : c = 'D'
  · subst h4; decide
  by_cases h5 : c = 'E'
  · subst h5; decide
  by_cases h6 : c = 'F'
  · subst h6; decide
  by_cases h7 : c = 'G'
  · subst h7; decide
  by_cases h8 : c = 'H'
  · subst h8; decide
  by_cases h9 : c = 'I'
  · subst h9; decide
  by_cases h10 : c = 'J'
  · subst h10; decide
  by_cases h11 : c = 'K'
  · subst h11; decide
  by_cases h12 : c = 'L'
  · subst h12; decide
  by_cases h13 : c = 'M'
  · subst h13; decide
  by_cases h14 : c = 'N'
  · subst h14; decide
  by_cases h15 : c = 'O'
  · subst h15; decide
  by_cases h16 : c = 'P'
  · subst h16; decide
  by_cases h17 : c = 'Q'
  · subst h17; decide
  by_cases h18 : c = 'R'
  · subst h18; decide
  by_cases h19 : c = 'S'
  · subst h19; decide
  by_cases h20 : c = 'T'
  · subst h20; decide
  by_cases h21 : c = 'U'
  · subst h21; decide
  by_cases h22 : c = 'V'
  · subst h22; decide
  by_cases h23 : c = 'W'
  · subst h23; decide
  by_cases h24 : c = 'X'
  · subst h24; decide
  by_cases h25 : c = 'Y'
  · subst h25; decide
  by_cases h26 : c = 'Z'
  · subst h26; decide
  by_cases h27 : c = 'Á'
  · subst h27; decide
  by_cases h28 : c = 'É'
  · subst h28; decide
  by_cases h29 : c = 'Í'
  · subst h29; decide
  by_cases h30 : c = 'Ó'
  · subst h30; decide
  by_cases h31 : c = 'Ö'
  · subst h31; decide
  by_cases h32 : c = 'Ő'
  · subst h32; decide
  by_cases h33 : c = 'Ú'
  · subst h33; decide
  by_cases h34 : c = 'Ü'
  · subst h34; decide
  by_cases h35 : c = 'Ű'
  · subst h35; decide
  have hc : lowerChar c = c := by
    simp only [lowerChar, if_neg h1, if_neg h2, if_neg h3, if_neg h4, if_neg h5, if_neg h6,
      if_neg h7, if_neg h8, if_neg h9, if_neg h10, if_neg h11, if_neg h12, if_neg h13,
      if_neg h14, if_neg h15, if_neg h16, if_neg h17, if_neg h18, if_neg h19, if_neg h20,
      if_neg h21, if_neg h22, if_neg h23, if_neg h24, if_neg h25, if_neg h26, if_neg h27,
      if_neg h28, if_neg h29, if_neg h30, if_neg h31, if_neg h32, if_neg h33, if_neg h34,
      if_neg h35]
  rw [hc, hc]

theorem pyLower_idem (s : Str) : pyLower (pyLower s) = pyLower s := by
  induction s with
  | nil => rfl
  | cons c cs ih =>
    simp only [pyLower, List.map_cons] at ih ⊢
    rw [lowerChar_idem]
    exact congrArg _ (by simpa [pyLower] using ih)

theorem pyLower_norm_user (x : Str) : pyLower (norm_user x) = norm_user x := by
  unfold norm_user
  exact pyLower_idem _

theorem pyLower_norm_sub (x : Str) : pyLower (norm_sub x) = norm_sub x := by
  unfold norm_sub
  exact pyLower_idem _

theorem nil_not_mem_storeLines (l : List Str) : [] ∉ storeLines l := by
  intro h
  rcases List.mem_filter.mp h with ⟨-, hp⟩
  simp at hp

/-- Claim C2 (amended): identity/category canonicalization is total (the
embedding is a total function) and case-insensitive on the documented
examples (`canon "U/Foo" = canon "foo" = canon "FOO" = "foo"`), and it is
idempotent for every input whose canonical form is whitespace-stripped and
does not itself begin with the namespace prefix; inputs such as `"u/u/foo"`
(doubled prefix) or `"u/ foo"` (whitespace after the prefix) are stripped
further by a second application. -/
theorem canon_total_idem_caseInsensitive :
    (∀ x : Str, pyStrip (norm_user x) = norm_user x → startsWithU (norm_user x) = false →
      norm_user (norm_user x) = norm_user x) ∧
    (∀ x : Str, pyStrip (norm_sub x) = norm_sub x → startsWithR (norm_sub x) = false →
      norm_sub (norm_sub x) = norm_sub x) ∧
    norm_user ['U', '/', 'F', 'o', 'o'] = norm_user ['f', 'o', 'o'] ∧
    norm_user ['f', 'o', 'o'] = norm_user ['F', 'O', 'O'] ∧
    norm_user ['F', 'O', 'O'] = ['f', 'o', 'o'] := by
  refine ⟨?_, ?_, by decide, by decide, by decide⟩
  · intro x h1 h2
    have hl : pyLower (norm_user x) = norm_user x := pyLower_norm_user x
    have hdef : norm_user (norm_user x) =
        pyLower (if startsWithU (pyLower (pyStrip (norm_user x)))
          then (pyStrip (norm_user x)).drop 2 else pyStrip (norm_user x)) := rfl
    rw [hdef, h1, hl, h2]
    simpa using hl
  · intro x h1 h2
    have hl : pyLower (norm_sub x) = norm_sub x := pyLower_norm_sub x
    have hdef : norm_sub (norm_sub x) =
        pyLower (if startsWithR (pyLower (pyStrip (norm_sub x)))
          then (pyStrip (norm_sub x)).drop 2 else pyStrip (norm_sub x)) := rfl
    rw [hdef, h1, hl, h2]
    simpa using hl

/-- Witness for `canon_total_idem_caseInsensitive`: its idempotence parts
applied at the concrete inputs `"U/Foo"` and `"R/Foo"`. -/
theorem canon_total_idem_caseInsensitive_witness :
    norm_user (norm_user ['U', '/', 'F', 'o', 'o']) = norm_user ['U', '/', 'F', 'o', 'o'] ∧
    norm_sub (norm_sub ['R', '/', 'F', 'o', 'o']) = norm_sub ['R', '/', 'F', 'o', 'o'] :=
  ⟨canon_total_idem_caseInsensitive.1 ['U', '/', 'F', 'o', 'o'] (by decide) (by decide),
   canon_total_idem_caseInsensitive.2.1 ['R', '/', 'F', 'o', 'o'] (by decide) (by decide)⟩

/-- Counterexample to claim C2 as stated: on the input `"u/u/foo"` the
canonicalizer returns `"u/foo"`, and a second application strips the
now-exposed prefix again, so `canon (canon x) ≠ canon x`. -/
theorem canon_not_idempotent_cex :
    norm_user (norm_user ['u', '/', 'u', '/', 'f', 'o', 'o']) ≠
      norm_user ['u', '/', 'u', '/', 'f', 'o', 'o'] := by decide

/-- Claim C10: for every identity whose canonical form is the empty string,
`add_to_visited` appends a blank line (which `storeLines` ignores on read),
so `is_visited` still returns `false` after the add, and repeated adds each
append another blank line instead of being idempotent. -/
theorem identityStore_empty_canon (lines : List Str) (u : Str)
    (h : norm_user u = []) :
    is_visited (add_to_visited lines u) u = false ∧
    add_to_visited lines u = lines ++ [[]] ∧
    add_to_visited (add_to_visited lines u) u = (lines ++ [[]]) ++ [[]] := by
  have hadd : ∀ l : List Str, add_to_visited l u = l ++ [[]] := by
    intro l
    simp only [add_to_visited, h]
    rw [if_neg (nil_not_mem_storeLines l)]
  refine ⟨?_, hadd lines, ?_⟩
  · simp only [is_visited, h]
    exact decide_eq_false (nil_not_mem_storeLines _)
  · rw [hadd, hadd]

/-- Witness for `identityStore_empty_canon` at the concrete identity
`"u/"`, whose canonical form is empty. -/
theorem identityStore_empty_canon_witness :
    is_visited (add_to_visited [] ['u', '/']) ['u', '/'] = false ∧
    add_to_visited [] ['u', '/'] = [] ++ [[]] ∧
    add_to_visited (add_to_visited [] ['u', '/']) ['u', '/'] = ([] ++ [[]]) ++ [[]] :=
  identityStore_empty_canon [] ['u', '/'] (by decide)

/-- One harvested unit as the paginator sees it: only the creation timestamp
matters (`getattr(s, "created_utc", 0)`); `none` models an item lacking the
attribute. -/
structure RedditItem where
  created_utc : Option Int
deriving DecidableEq, Repr

/-- Terminal state of the windowed paginator: feed ended, lower bound
passed, or hard limit reached. -/
inductive PagState
  | exhausted
  | windowClosed
  | capped
deriving DecidableEq, Repr

/-- `int(getattr(s, "created_utc", 0))`: a missing timestamp reads as 0. -/
def itemTime (s : RedditItem) : Int := s.created_utc.getD 0

/-- `before is not None and cu > before`. -/
def overBefore (before : Option Int) (cu : Int) : Bool :=
  match before with
  | some b => decide (b < cu)
  | none => false

/-- `after is not None and cu < after`. -/
def underAfter (after : Option Int) (cu : Int) : Bool :=
  match after with
  | some a => decide (cu < a)
  | none => false

/-- `hard_limit and count >= hard_limit`: Python truthiness makes a limit of
0 (or `None`) mean "no limit". -/
def hlHit (hl : Option Int) (count : Nat) : Bool :=
  match hl with
  | some n => decide (n ≠ 0 ∧ n ≤ (count : Int))
  | none => false

/-- The loop body shared by `iter_user_posts` and `iter_user_comments` in
`src/main.py`, as a function from the (descending) feed to the emitted
items, the part of the feed never consumed, and the terminal state. -/
def iterWindow (before after : Option Int) (hl : Option Int) :
    Nat → List RedditItem → List RedditItem × List RedditItem × PagState
  | _, [] => ([], [], .exhausted)
  | count, s :: rest =>
    let cu := itemTime s
    if overBefore before cu then iterWindow before after hl count rest
    else if underAfter after cu then ([], rest, .windowClosed)
    else if hlHit hl (count + 1) then ([s], rest, .capped)
    else
      let r := iterWindow before after hl (count + 1) rest
      (s :: r.1, r.2.1, r.2.2)

/-- An item with the given timestamp. -/
def mkItem (t : Int) : RedditItem := ⟨some t⟩

/-- The five-item descending feed of the specification's paginator example. -/
def feed5 : List RedditItem :=
  [mkItem 100, mkItem 90, mkItem 80, mkItem 70, mkItem 60]

/-- Whether a feed is descending by (defaulted) creation timestamp. -/
def descendingB : List RedditItem → Bool
  | [] => true
  | [_] => true
  | x :: y :: rest => decide (itemTime y ≤ itemTime x) && descendingB (y :: rest)

/-- Claim C3: on the descending feed with timestamps `[100,90,80,70,60]` and
the inclusive window `(after=75, before=95)` the paginator yields exactly
the items at `[90,80]` in order and stops without consuming the item at 60;
and in general a fed item is skipped when `before` is set and `t > before`,
ends iteration (window closed) when it is not skipped, `after` is set and
`t < after`, and is emitted first otherwise. -/
theorem iterWindow_spec :
    iterWindow (some 95) (some 75) none 0 feed5 =
      ([mkItem 90, mkItem 80], [mkItem 60], .windowClosed) ∧
    (∀ (before after hl : Option Int) (count : Nat) (s : RedditItem) (rest : List RedditItem),
      (∀ b : Int, before = some b → b < itemTime s →
        iterWindow before after hl count (s :: rest) = iterWindow before after hl count rest) ∧
      (∀ a : Int, overBefore before (itemTime s) = false → after = some a → itemTime s < a →
        iterWindow before after hl count (s :: rest) = ([], rest, .windowClosed)) ∧
      (overBefore before (itemTime s) = false → underAfter after (itemTime s) = false →
        (iterWindow before after hl count (s :: rest)).1.head? = some s)) := by
  refine ⟨by decide, ?_⟩
  intro before after hl count s rest
  refine ⟨?_, ?_, ?_⟩
  · intro b hb ht
    subst hb
    have hob : overBefore (some b) (itemTime s) = true := by
      simp [overBefore, ht]
    simp only [iterWindow, hob, if_true]
  · intro a hob ha ht
    subst ha
    have hua : underAfter (some a) (itemTime s) = true := by
      simp [underAfter, ht]
    simp only [iterWindow, hob, hua, Bool.false_eq_true, if_false, if_true]
  · intro hob hua
    simp only [iterWindow, hob, hua, Bool.false_eq_true, if_false]
    by_cases hcap : hlHit hl (count + 1) = true
    · simp [hcap]
    · simp [hcap]

/-- Witness for `iterWindow_spec`: its skip, stop, and emit clauses applied
to concrete items under the window `(after=75, before=95)`. -/
theorem iterWindow_spec_witness :
    iterWindow (some 95) (some 75) none 0 (mkItem 100 :: [mkItem 90]) =
      iterWindow (some 95) (some 75) none 0 [mkItem 90] ∧
    iterWindow (some 95) (some 75) none 0 (mkItem 70 :: [mkItem 60]) =
      ([], [mkItem 60], .windowClosed) ∧
    (iterWindow (some 95) (some 75) none 0 (mkItem 90 :: [])).1.head? = some (mkItem 90) :=
  ⟨(iterWindow_spec.2 (some 95) (some 75) none 0 (mkItem 100) [mkItem 90]).1 95 rfl (by decide),
   (iterWindow_spec.2 (some 95) (some 75) none 0 (mkItem 70) [mkItem 60]).2.1 75 (by decide)
     rfl (by decide),
   (iterWindow_spec.2 (some 95) (some 75) none 0 (mkItem 90) []).2.2 (by decide) (by decide)⟩

/-- Claim C7: with window `(after=75, before=95)` and `hard_limit=1` on the
descending feed `[100,90,80,70,60]`, the paginator yields exactly the item
at 90 and stops in the capped state. -/
theorem iterWindow_hardLimit_one :
    iterWindow (some 95) (some 75) (some 1) 0 feed5 =
      ([mkItem 90], [mkItem 80, mkItem 70, mkItem 60], .capped) := by decide

theorem iterWindow_degenerate_aux (b a : Int) (hl : Option Int) (hab : b < a) :
    ∀ (feed : List RedditItem) (count : Nat),
      (iterWindow (some b) (some a) hl count feed).1 = [] := by
  intro feed
  induction feed with
  | nil => intro count; rfl
  | cons s rest ih =>
    intro count
    by_cases hob : overBefore (some b) (itemTime s) = true
    · simp only [iterWindow, hob, if_true]
      exact ih count
    · have hob' : overBefore (some b) (itemTime s) = false :=
        Bool.eq_false_iff.mpr hob
      have hle : itemTime s ≤ b := by
        simp [overBefore] at hob'
        exact hob'
      have hua : underAfter (some a) (itemTime s) = true := by
        simp only [underAfter, decide_eq_true_eq]
        omega
      simp only [iterWindow, hob', hua, Bool.false_eq_true, if_false, if_true]

/-- Claim C8: whenever the window's lower bound `after` exceeds its upper
bound `before` (the degenerate case), the paginator yields zero items on
every descending feed: each item is either newer than `before` (skipped) or
at most `before`, hence strictly below `after` (iteration ends). -/
theorem iterWindow_degenerate_window (a b : Int) (hl : Option Int) (count : Nat)
    (feed : List RedditItem) (hd : descendingB feed = true) (hab : b < a) :
    (iterWindow (some b) (some a) hl count feed).1 = [] :=
  iterWindow_degenerate_aux b a hl hab feed count

/-- Witness for `iterWindow_degenerate_window` on the concrete descending
feed `[100,90,80,70,60]` with `after = 20 > before = 10`. -/
theorem iterWindow_degenerate_window_witness :
    (iterWindow (some 10) (some 20) none 0 feed5).1 = [] :=
  iterWindow_degenerate_window 20 10 none 0 feed5 (by decide) (by decide)

/-- An item lacking the `created_utc` attribute. -/
def noTsItem : RedditItem := ⟨none⟩

/-- Counterexample to claim C9 as stated: with `before = -1` (set and
negative) and lower bound `after = 3 > 0`, the timestamp-less item reads as
`t = 0 > before`, so the paginator skips it and keeps scanning instead of
terminating there: the whole feed is consumed and the run ends in the
`exhausted` state, not `windowClosed` at the timestamp-less item. -/
theorem iterWindow_missing_ts_cex :
    iterWindow (some (-1)) (some 3) none 0 [noTsItem, mkItem 10] = ([], [], .exhausted) ∧
    PagState.exhausted ≠ PagState.windowClosed := by decide

/-- Claim C9 (amended): an item lacking a creation timestamp is treated as
having timestamp 0; whenever a positive lower bound `after > 0` is set and
the upper bound `before` is unset or nonnegative, encountering such an item
immediately ends iteration in the window-closed state (with the rest of the
feed unconsumed) instead of emitting or skipping it. -/
theorem iterWindow_missing_ts (before : Option Int) (a : Int) (hl : Option Int)
    (count : Nat) (s : RedditItem) (rest : List RedditItem)
    (hs : s.created_utc = none) (ha : 0 < a)
    (hb : before = none ∨ ∃ b : Int, before = some b ∧ 0 ≤ b) :
    itemTime s = 0 ∧
    iterWindow before (some a) hl count (s :: rest) = ([], rest, .windowClosed) := by
  have ht : itemTime s = 0 := by simp [itemTime, hs]
  refine ⟨ht, ?_⟩
  have hob : overBefore before (itemTime s) = false := by
    rcases hb with h | ⟨b, hbb, hb0⟩
    · simp [h, overBefore]
    · subst hbb
      simp only [overBefore, ht, decide_eq_false_iff_not]
      omega
  have hua : underAfter (some a) (itemTime s) = true := by
    simp only [underAfter, ht, decide_eq_true_eq]
    omega
  simp only [iterWindow, hob, hua, Bool.false_eq_true, if_false, if_true]

/-- Witness for `iterWindow_missing_ts` at `before = 5`, `after = 3`, with
one later item left unconsumed. -/
theorem iterWindow_missing_ts_witness :
    itemTime noTsItem = 0 ∧
    iterWindow (some 5) (some 3) none 0 [noTsItem, mkItem 2] =
      ([], [mkItem 2], .windowClosed) :=
  iterWindow_missing_ts (some 5) 3 none 0 noTsItem [mkItem 2] rfl (by decide)
    (Or.inr ⟨5, rfl, by decide⟩)

/-- Membership in the alphabet of `_WORD_RE`:
`[A-Za-zÁÉÍÓÖŐÚÜŰáéíóöőúüű]`. -/
def isAlphaHu (c : Char) : Bool :=
  decide ('A' ≤ c ∧ c ≤ 'Z') || decide ('a' ≤ c ∧ c ≤ 'z') ||
  decide (c ∈ ['Á', 'É', 'Í', 'Ó', 'Ö', 'Ő', 'Ú', 'Ü', 'Ű',
               'á', 'é', 'í', 'ó', 'ö', 'ő', 'ú', 'ü', 'ű'])

/-- Accumulator pass of `_WORD_RE.findall`: collect maximal runs of alphabet
characters (`cur` is the current run, reversed). -/
def findWordsAux : List Char → List Char → List Str
  | [], cur => if cur = [] then [] else [cur.reverse]
  | c :: cs, cur =>
    if isAlphaHu c then findWordsAux cs (c :: cur)
    else if cur = [] then findWordsAux cs [] else cur.reverse :: findWordsAux cs []

/-- `_WORD_RE.findall(t)`. -/
def findWords (t : Str) : List Str := findWordsAux t []

/-- `[w.lower() for w in _WORD_RE.findall(t) if len(w) >= 2]` applied to the
stripped text: the qualifying words of the dictionary-ratio detector. -/
def qualifyingWords (text : Str) : List Str :=
  ((findWords (pyStrip text)).filter (fun w => 2 ≤ w.length)).map pyLower

/-- The `for w in words[:400]` loop of `hunspell_hu_score`, accumulating
`(ok, total)`; `spell w = none` models the lookup raising, in which case the
word is removed from `total` again (`total -= 1`). -/
def spellLoop (spell : Str → Option Bool) : List Str → Nat × Nat → Nat × Nat
  | [], acc => acc
  | w :: ws, (ok, total) =>
    match spell w with
    | none => spellLoop spell ws (ok, total)
    | some b => spellLoop spell ws (if b then ok + 1 else ok, total + 1)

/-- `hunspell_hu_score` from `src/main.py`; the hunspell object is modelled
as an optional lookup function (`none` = backend unavailable; per-word
`none` = the lookup raised). -/
def hunspell_hu_score (text : Str) (hunspell_obj : Option (Str → Option Bool)) :
    Option ℚ :=
  match hunspell_obj with
  | none => none
  | some sp =>
    some (
      if pyStrip text = [] then 0
      else
        let words := qualifyingWords text
        if words.length < 5 then 0
        else
          let p := spellLoop sp (words.take 400) (0, 0)
          if p.2 = 0 then 0 else (p.1 : ℚ) / (p.2 : ℚ))

/-- `langdetect_hu_score` from `src/main.py`: `none` when the backend is
unavailable; otherwise text shorter than 15 characters scores 0, and longer
text scores whatever the external detector reports for Hungarian (modelled
by the abstract function `f`, which also absorbs the `except` branch). -/
def langdetect_hu_score (text : Str) (detect_langs_func : Option (Str → ℚ)) :
    Option ℚ :=
  match detect_langs_func with
  | none => none
  | some f =>
    let t := pyStrip text
    some (if t.length < 15 then 0 else f t)

/-- `is_hungarian` from `src/main.py`: an unavailable detector reports score
-1.0; keep iff an available detector's score reaches the threshold. -/
def is_hungarian (text : Str) (threshold : ℚ) (detect_langs_func : Option (Str → ℚ))
    (hunspell_obj : Option (Str → Option Bool)) : Bool × ℚ × ℚ :=
  let ld := langdetect_hu_score text detect_langs_func
  let hs := hunspell_hu_score text hunspell_obj
  let ld_score := ld.getD (-1)
  let hs_score := hs.getD (-1)
  let keep :=
    (match ld with
     | some v => decide (threshold ≤ v)
     | none => false) ||
    (match hs with
     | some v => decide (threshold ≤ v)
     | none => false)
  (keep, ld_score, hs_score)

theorem keep_iff_aux (threshold : ℚ) (h0 : 0 ≤ threshold) (ld hs : Option ℚ) :
    ((match ld with
      | some v => decide (threshold ≤ v)
      | none => false) ||
     (match hs with
      | some v => decide (threshold ≤ v)
      | none => false)) = true ↔
    threshold ≤ ld.getD (-1) ∨ threshold ≤ hs.getD (-1) := by
  cases ld with
  | none =>
    cases hs with
    | none =>
      simp only [Option.getD_none, Bool.or_self]
      constructor
      · intro h; simp at h
      · rintro (h | h) <;> linarith
    | some w =>
      simp only [Option.getD_none, Option.getD_some, Bool.false_or, decide_eq_true_eq]
      constructor
      · intro h; exact Or.inr h
      · rintro (h | h)
        · linarith
        · exact h
  | some v =>
    cases hs with
    | none =>
      simp only [Option.getD_none, Option.getD_some, Bool.or_false, decide_eq_true_eq]
      constructor
      · intro h; exact Or.inl h
      · rintro (h | h)
        · exact h
        · linarith
    | some w =>
      simp only [Option.getD_some, Bool.or_eq_true, decide_eq_true_eq]

/-- Claim C4: for every text and every threshold in `[0,1]`, the verdict is
`keep = (statistical_score ≥ threshold) ∨ (dictionary_score ≥ threshold)`
on the reported scores, where an unavailable backend reports -1 (which never
reaches a threshold in `[0,1]`); with both backends unavailable `keep` is
always `false`. -/
theorem is_hungarian_keep_rule (text : Str) (threshold : ℚ)
    (detect_langs_func : Option (Str → ℚ)) (hunspell_obj : Option (Str → Option Bool))
    (h0 : 0 ≤ threshold) (h1 : threshold ≤ 1) :
    ((is_hungarian text threshold detect_langs_func hunspell_obj).1 = true ↔
      threshold ≤ (is_hungarian text threshold detect_langs_func hunspell_obj).2.1 ∨
      threshold ≤ (is_hungarian text threshold detect_langs_func hunspell_obj).2.2) ∧
    (detect_langs_func = none → hunspell_obj = none →
      (is_hungarian text threshold detect_langs_func hunspell_obj).1 = false) := by
  constructor
  · exact keep_iff_aux threshold h0 (langdetect_hu_score text detect_langs_func)
      (hunspell_hu_score text hunspell_obj)
  · rintro rfl rfl
    rfl

/-- A concrete statistical backend reporting probability 3/5. -/
def dTest : Str → ℚ := fun _ => 3 / 5

/-- Witness for `is_hungarian_keep_rule` at threshold 1/2 with the
statistical backend available and the dictionary backend unavailable. -/
theorem is_hungarian_keep_rule_witness :
    ((is_hungarian [] ((1 : ℚ) / 2) (some dTest) none).1 = true ↔
      (1 : ℚ) / 2 ≤ (is_hungarian [] ((1 : ℚ) / 2) (some dTest) none).2.1 ∨
      (1 : ℚ) / 2 ≤ (is_hungarian [] ((1 : ℚ) / 2) (some dTest) none).2.2) ∧
    (some dTest = none → (none : Option (Str → Option Bool)) = none →
      (is_hungarian [] ((1 : ℚ) / 2) (some dTest) none).1 = false) :=
  is_hungarian_keep_rule [] ((1 : ℚ) / 2) (some dTest) none (by norm_num) (by norm_num)

theorem spellLoop_counts (spell : Str → Option Bool) :
    ∀ (ws : List Str) (a b : Nat),
      spellLoop spell ws (a, b) =
        (a + ws.countP (fun w => decide (spell w = some true)),
         b + ws.countP (fun w => (spell w).isSome)) := by
  intro ws
  induction ws with
  | nil => intro a b; simp [spellLoop]
  | cons w ws ih =>
    intro a b
    cases hw : spell w with
    | none =>
      simp only [spellLoop, hw]
      rw [ih]
      simp [List.countP_cons, hw]
    | some bb =>
      simp only [spellLoop, hw]
      rw [ih]
      cases bb <;> simp [List.countP_cons, hw] <;> omega

/-- Claim C6: with fewer than 5 qualifying words the dictionary-ratio
detector scores 0 for every dictionary; with at least 5, the score is the
ratio over the first 400 qualifying words of successful lookups to
non-raising lookups, so a word whose lookup raises is excluded from both the
numerator and the denominator instead of counting as a miss. -/
theorem hunspell_score_rules (sp : Str → Option Bool) (text : Str) :
    ((qualifyingWords text).length < 5 → hunspell_hu_score text (some sp) = some 0) ∧
    (5 ≤ (qualifyingWords text).length →
      hunspell_hu_score text (some sp) =
        some (
          if ((qualifyingWords text).take 400).countP (fun w => (sp w).isSome) = 0 then 0
          else
            ((((qualifyingWords text).take 400).countP
                (fun w => decide (sp w = some true)) : ℚ)) /
              ((((qualifyingWords text).take 400).countP
                (fun w => (sp w).isSome) : ℚ)))) := by
  constructor
  · intro h
    simp only [hunspell_hu_score]
    by_cases ht : pyStrip text = []
    · simp [ht]
    · simp [ht, h]
  · intro h
    have ht : pyStrip text ≠ [] := by
      intro he
      have hq : qualifyingWords text = [] := by
        simp [qualifyingWords, he, findWords, findWordsAux]
      rw [hq] at h
      simp at h
    simp only [hunspell_hu_score, if_neg ht,
      if_neg (by omega : ¬ (qualifyingWords text).length < 5)]
    rw [spellLoop_counts]
    simp

/-- A concrete dictionary: knows `alma`, raises on `xx`, rejects others. -/
def spellTest : Str → Option Bool :=
  fun w =>
    if w = ['a', 'l', 'm', 'a'] then some true
    else if w = ['x', 'x'] then none
    else some false

/-- A text with only two qualifying words. -/
def textShort : Str := ['a', 'b', ' ', 'c', 'd']

/-- A text with six qualifying words, one of which makes the lookup raise. -/
def textLong : Str :=
  ['a', 'l', 'm', 'a', ' ', 'a', 'l', 'm', 'a', ' ', 'a', 'l', 'm', 'a', ' ',
   'a', 'l', 'm', 'a', ' ', 'a', 'l', 'm', 'a', ' ', 'x', 'x']

/-- Witness for `hunspell_score_rules`: the short text scores 0, and on the
long text the raising word `xx` is excluded from the ratio, giving 5/5 = 1
rather than 5/6. -/
theorem hunspell_score_rules_witness :
    hunspell_hu_score textShort (some spellTest) = some 0 ∧
    hunspell_hu_score textLong (some spellTest) = some 1 := by
  constructor
  · exact (hunspell_score_rules spellTest textShort).1 (by decide)
  · have h := (hunspell_score_rules spellTest textLong).2 (by decide)
    have hcnt1 : ((qualifyingWords textLong).take 400).countP
        (fun w => (spellTest w).isSome) = 5 := by decide
    have hcnt2 : ((qualifyingWords textLong).take 400).countP
        (fun w => decide (spellTest w = some true)) = 5 := by decide
    rw [h, hcnt1, hcnt2]
    norm_num

/-- The per-run flags of `main` that matter for the batch loop. -/
structure Config where
  include_posts : Bool
  include_comments : Bool
  visited_override : Bool
deriving DecidableEq, Repr

/-- Outcome of processing one identity, as seen at the `resolve_user`
boundary: `unresolved` covers not-found, forbidden, redirect and any other
resolution error (all of which make `resolve_user` return `None`);
`harvestError` is an uncaught exception later in the harvest, with a flag
recording whether the output files had been created by then. -/
inductive UserOutcome
  | resolvedOk
  | unresolved
  | harvestError (filesCreated : Bool)
deriving DecidableEq, Repr

/-- Observable persistent state of a batch run: the visited (processed)
store, the timeouts (failed) store, and the set of created output files. -/
structure BatchState where
  visited : List Str
  timeouts : List Str
  outputs : List Str
deriving DecidableEq, Repr

/-- The per-identity output files `{key}_posts.txt` / `{key}_chats.txt`,
each opened only when its item class is enabled. -/
def outputFiles (cfg : Config) (key : Str) : List Str :=
  (if cfg.include_posts
    then [key ++ ['_', 'p', 'o', 's', 't', 's', '.', 't', 'x', 't']] else []) ++
  (if cfg.include_comments
    then [key ++ ['_', 'c', 'h', 'a', 't', 's', '.', 't', 'x', 't']] else [])

/-- `download_user_activity` from `src/main.py`, abstracted over the remote
collaborators: if resolution fails the function returns before creating any
file; otherwise the output files are opened; the boolean reports whether an
uncaught exception escaped. -/
def download_user_activity (resolve : Str → UserOutcome) (cfg : Config)
    (st : BatchState) (username : Str) : BatchState × Bool :=
  let key := norm_user username
  match resolve key with
  | .unresolved => (st, false)
  | .resolvedOk => ({ st with outputs := st.outputs ++ outputFiles cfg key }, false)
  | .harvestError fc =>
    (if fc then { st with outputs := st.outputs ++ outputFiles cfg key } else st, true)

/-- One iteration of the user loop in `main`: skip blank entries, skip
already-visited identities (unless `--reset-visited`), then harvest; on
normal return add to the visited store, on an exception add to the timeouts
store and continue. -/
def processOne (resolve : Str → UserOutcome) (cfg : Config)
    (st : BatchState) (u : Str) : BatchState :=
  if pyStrip u = [] then st
  else if !cfg.visited_override && is_visited st.visited u then st
  else
    let r := download_user_activity resolve cfg st u
    if r.2 then { r.1 with timeouts := add_to_timeouts r.1.timeouts u }
    else { r.1 with visited := add_to_visited r.1.visited u }

/-- The whole user loop of `main`. -/
def runBatch (resolve : Str → UserOutcome) (cfg : Config) :
    BatchState → List Str → BatchState
  | st, [] => st
  | st, u :: us => runBatch resolve cfg (processOne resolve cfg st u) us

/-- A resolver under which every identity fails to resolve. -/
def resolveNone : Str → UserOutcome := fun _ => .unresolved

/-- The default configuration: both item classes enabled, no reset flag. -/
def cfg0 : Config := ⟨true, true, false⟩

/-- Counterexample to claim C1 as stated: when resolution of `"alice"`
returns not-found, `download_user_activity` returns normally and `main`
still calls `add_to_visited`, so the identity ends up IN the processed
store (while no output file is created and the failed store is untouched). -/
theorem unresolved_marks_visited_cex :
    processOne resolveNone cfg0 ⟨[], [], []⟩ ['a', 'l', 'i', 'c', 'e'] =
      ⟨[['a', 'l', 'i', 'c', 'e']], [], []⟩ ∧
    is_visited (processOne resolveNone cfg0 ⟨[], [], []⟩ ['a', 'l', 'i', 'c', 'e']).visited
      ['a', 'l', 'i', 'c', 'e'] = true := by decide

/-- Claim C1 (amended): for every queued identity whose resolution returns
not-found (or forbidden, redirect, or any other resolution error), the run
creates no output files for that identity and the identity stays absent
from the failed store, but it IS added to the processed store (main calls
`add_to_visited` after the normal early return), and the batch proceeds to
the next identity. -/
theorem unresolved_keeps_stores (resolve : Str → UserOutcome) (cfg : Config)
    (st : BatchState) (u : Str) (us : List Str)
    (hu : pyStrip u ≠ [])
    (hv : cfg.visited_override = true ∨ is_visited st.visited u = false)
    (hr : resolve (norm_user u) = .unresolved) :
    processOne resolve cfg st u = { st with visited := add_to_visited st.visited u } ∧
    (processOne resolve cfg st u).outputs = st.outputs ∧
    (processOne resolve cfg st u).timeouts = st.timeouts ∧
    runBatch resolve cfg st (u :: us) =
      runBatch resolve cfg (processOne resolve cfg st u) us := by
  have hstep : processOne resolve cfg st u =
      { st with visited := add_to_visited st.visited u } := by
    have hguard : (!cfg.visited_override && is_visited st.visited u) = false := by
      rcases hv with h | h <;> simp [h]
    simp only [processOne, if_neg hu, hguard, Bool.false_eq_true, if_false,
      download_user_activity, hr]
  exact ⟨hstep, by rw [hstep], by rw [hstep], rfl⟩

/-- Witness for `unresolved_keeps_stores` at the identity `"alice"` on an
empty initial state, with one more identity queued behind it. -/
theorem unresolved_keeps_stores_witness :
    processOne resolveNone cfg0 ⟨[], [], []⟩ ['a', 'l', 'i', 'c', 'e'] =
      { (⟨[], [], []⟩ : BatchState) with
          visited := add_to_visited [] ['a', 'l', 'i', 'c', 'e'] } ∧
    (processOne resolveNone cfg0 ⟨[], [], []⟩ ['a', 'l', 'i', 'c', 'e']).outputs = [] ∧
    (processOne resolveNone cfg0 ⟨[], [], []⟩ ['a', 'l', 'i', 'c', 'e']).timeouts = [] ∧
    runBatch resolveNone cfg0 ⟨[], [], []⟩ (['a', 'l', 'i', 'c', 'e'] :: [['b', 'o', 'b']]) =
      runBatch resolveNone cfg0
        (processOne resolveNone cfg0 ⟨[], [], []⟩ ['a', 'l', 'i', 'c', 'e']) [['b', 'o', 'b']] :=
  unresolved_keeps_stores resolveNone cfg0 ⟨[], [], []⟩ ['a', 'l', 'i', 'c', 'e']
    [['b', 'o', 'b']] (by decide) (Or.inr (by decide)) rfl

theorem mem_storeLines_add (lines : List Str) (u : Str)
    (hne : norm_user u ≠ []) (hfix : pyStrip (norm_user u) = norm_user u) :
    norm_user u ∈ storeLines (add_to_timeouts lines u) := by
  by_cases hmem : norm_user u ∈ storeLines lines
  · simp only [add_to_timeouts, if_pos hmem]
    exact hmem
  · simp only [add_to_timeouts, if_neg hmem]
    have hexp : storeLines (lines ++ [norm_user u]) = storeLines lines ++ [norm_user u] := by
      simp only [storeLines, List.map_append, List.filter_append, List.map_cons,
        List.map_nil, hfix, List.filter_cons, List.filter_nil]
      simp [hne]
    rw [hexp]
    exact List.mem_append_right _ (List.mem_singleton.mpr rfl)

/-- Claim C5: for every identity being harvested, an uncaught exception
during its harvest adds the identity to the failed (timeouts) store — when
its canonical form is a non-blank line this makes it a member of the store
as read back — leaves the processed store unchanged, and the batch
continues with the next queued identity instead of aborting. -/
theorem harvestError_adds_timeout (resolve : Str → UserOutcome) (cfg : Config)
    (st : BatchState) (u : Str) (us : List Str) (fc : Bool)
    (hu : pyStrip u ≠ [])
    (hv : cfg.visited_override = true ∨ is_visited st.visited u = false)
    (hr : resolve (norm_user u) = .harvestError fc) :
    (processOne resolve cfg st u).timeouts = add_to_timeouts st.timeouts u ∧
    (norm_user u ≠ [] → pyStrip (norm_user u) = norm_user u →
      norm_user u ∈ storeLines (processOne resolve cfg st u).timeouts) ∧
    (processOne resolve cfg st u).visited = st.visited ∧
    runBatch resolve cfg st (u :: us) =
      runBatch resolve cfg (processOne resolve cfg st u) us := by
  have hguard : (!cfg.visited_override && is_visited st.visited u) = false := by
    rcases hv with h | h <;> simp [h]
  have hstep : processOne resolve cfg st u =
      { (if fc then { st with outputs := st.outputs ++ outputFiles cfg (norm_user u) }
          else st) with
        timeouts := add_to_timeouts st.timeouts u } := by
    simp only [processOne, if_neg hu, hguard, Bool.false_eq_true, if_false,
      download_user_activity, hr]
    cases fc <;> rfl
  have htimeouts : (processOne resolve cfg st u).timeouts = add_to_timeouts st.timeouts u := by
    rw [hstep]
  refine ⟨htimeouts, ?_, ?_, rfl⟩
  · intro hne hfix
    rw [htimeouts]
    exact mem_storeLines_add st.timeouts u hne hfix
  · rw [hstep]
    cases fc <;> rfl

/-- A resolver under which every identity resolves but its harvest raises
after the output files were opened. -/
def resolveRaise : Str → UserOutcome := fun _ => .harvestError true

/-- Witness for `harvestError_adds_timeout` at the identity `"bob"` on an
empty initial state. -/
theorem harvestError_adds_timeout_witness :
    (processOne resolveRaise cfg0 ⟨[], [], []⟩ ['b', 'o', 'b']).timeouts =
      add_to_timeouts [] ['b', 'o', 'b'] ∧
    (norm_user ['b', 'o', 'b'] ≠ [] → pyStrip (norm_user ['b', 'o', 'b']) = norm_user ['b', 'o', 'b'] →
      norm_user ['b', 'o', 'b'] ∈
        storeLines (processOne resolveRaise cfg0 ⟨[], [], []⟩ ['b', 'o', 'b']).timeouts) ∧
    (processOne resolveRaise cfg0 ⟨[], [], []⟩ ['b', 'o', 'b']).visited = [] ∧
    runBatch resolveRaise cfg0 ⟨[], [], []⟩ (['b', 'o', 'b'] :: [['e', 'v', 'e']]) =
      runBatch resolveRaise cfg0
        (processOne resolveRaise cfg0 ⟨[], [], []⟩ ['b', 'o', 'b']) [['e', 'v', 'e']] :=
  harvestError_adds_timeout resolveRaise cfg0 ⟨[], [], []⟩ ['b', 'o', 'b']
    [['e', 'v', 'e']] true (by decide) (Or.inr (by decide)) rfl
